import Mathlib

/- Verification of the motion, distortion and wrap-layout engine of the
   threejs-sliders repository (components ThreeSlider.tsx and
   ThreeSliderDraggable.tsx), embedded over exact rational arithmetic. -/

namespace Slider

/-- Truncation toward zero, the rounding JavaScript applies inside the `%`
operator on numbers. -/
def jsTrunc (q : ℚ) : ℤ := if 0 ≤ q then ⌊q⌋ else ⌈q⌉

/-- The JavaScript remainder `a % m`, which is `a - m * trunc (a / m)` and
keeps the sign of `a`. -/
def jsFmod (a m : ℚ) : ℚ := a - m * (jsTrunc (a / m) : ℚ)

/-- The double-remainder idiom `((a % m) + m) % m` used by the wrap layout in
the animate loop to obtain a non-negative representative. -/
def jsEuclidMod (a m : ℚ) : ℚ := jsFmod (jsFmod a m + m) m

lemma jsFmod_bounds (a m : ℚ) (hm : 0 < m) : -m < jsFmod a m ∧ jsFmod a m < m := by
  have hm0 : m ≠ 0 := ne_of_gt hm
  unfold jsFmod jsTrunc
  by_cases h : 0 ≤ a / m
  · rw [if_pos h]
    have h1 : (⌊a / m⌋ : ℚ) ≤ a / m := Int.floor_le _
    have h2 : a / m < (⌊a / m⌋ : ℚ) + 1 := Int.lt_floor_add_one _
    have key : a - m * (⌊a / m⌋ : ℚ) = m * (a / m - (⌊a / m⌋ : ℚ)) := by
      field_simp
    rw [key]
    constructor
    · have hnn : 0 ≤ m * (a / m - (⌊a / m⌋ : ℚ)) :=
        mul_nonneg hm.le (by linarith)
      linarith
    · have : m * (a / m - (⌊a / m⌋ : ℚ)) < m * 1 :=
        mul_lt_mul_of_pos_left (by linarith) hm
      linarith
  · rw [if_neg h]
    push_neg at h
    have h1 : a / m ≤ (⌈a / m⌉ : ℚ) := Int.le_ceil _
    have h2 : (⌈a / m⌉ : ℚ) < a / m + 1 := Int.ceil_lt_add_one _
    have key : a - m * (⌈a / m⌉ : ℚ) = m * (a / m - (⌈a / m⌉ : ℚ)) := by
      field_simp
    rw [key]
    constructor
    · have : m * (-1) < m * (a / m - (⌈a / m⌉ : ℚ)) :=
        mul_lt_mul_of_pos_left (by linarith) hm
      linarith
    · have : m * (a / m - (⌈a / m⌉ : ℚ)) ≤ 0 :=
        mul_nonpos_of_nonneg_of_nonpos hm.le (by linarith)
      linarith

lemma jsFmod_nonneg (a m : ℚ) (hm : 0 < m) (ha : 0 ≤ a) : 0 ≤ jsFmod a m := by
  have hm0 : m ≠ 0 := ne_of_gt hm
  unfold jsFmod jsTrunc
  have h : 0 ≤ a / m := div_nonneg ha hm.le
  rw [if_pos h]
  have h1 : (⌊a / m⌋ : ℚ) ≤ a / m := Int.floor_le _
  have key : a - m * (⌊a / m⌋ : ℚ) = m * (a / m - (⌊a / m⌋ : ℚ)) := by
    field_simp
  rw [key]
  exact mul_nonneg hm.le (by linarith)

lemma jsEuclidMod_nonneg (a m : ℚ) (hm : 0 < m) : 0 ≤ jsEuclidMod a m := by
  have hb := jsFmod_bounds a m hm
  exact jsFmod_nonneg _ m hm (by linarith [hb.1])

lemma jsEuclidMod_lt (a m : ℚ) (hm : 0 < m) : jsEuclidMod a m < m :=
  (jsFmod_bounds _ m hm).2

lemma jsFmod_sub_int (a m : ℚ) : ∃ k : ℤ, jsFmod a m = a - (k : ℚ) * m :=
  ⟨jsTrunc (a / m), by unfold jsFmod; ring⟩

lemma jsEuclidMod_sub_int (a m : ℚ) : ∃ k : ℤ, jsEuclidMod a m = a - (k : ℚ) * m := by
  obtain ⟨k1, h1⟩ := jsFmod_sub_int a m
  obtain ⟨k2, h2⟩ := jsFmod_sub_int (jsFmod a m + m) m
  refine ⟨k1 + k2 - 1, ?_⟩
  unfold jsEuclidMod
  rw [h2, h1]
  push_cast
  ring

lemma wrap_unique (m x y : ℚ) (hm : 0 < m) (hx0 : 0 ≤ x) (hx1 : x < m)
    (hy0 : 0 ≤ y) (hy1 : y < m) (k : ℤ) (hk : x - y = (k : ℚ) * m) : x = y := by
  have hk1 : (k : ℚ) * m < 1 * m := by rw [one_mul]; linarith
  have hk2 : (-1 : ℚ) * m < (k : ℚ) * m := by
    rw [neg_one_mul]; linarith
  have hlt : (k : ℚ) < 1 := (mul_lt_mul_right hm).mp hk1
  have hgt : (-1 : ℚ) < (k : ℚ) := (mul_lt_mul_right hm).mp hk2
  have hk0 : k = 0 := by
    have a1 : k < 1 := by exact_mod_cast hlt
    have a2 : -1 < k := by exact_mod_cast hgt
    omega
  rw [hk0] at hk
  push_cast at hk
  linarith

lemma jsEuclidMod_add_period (a m : ℚ) (hm : 0 < m) :
    jsEuclidMod (a + m) m = jsEuclidMod a m := by
  obtain ⟨k1, h1⟩ := jsEuclidMod_sub_int (a + m) m
  obtain ⟨k2, h2⟩ := jsEuclidMod_sub_int a m
  refine wrap_unique m _ _ hm (jsEuclidMod_nonneg _ m hm) (jsEuclidMod_lt _ m hm)
    (jsEuclidMod_nonneg _ m hm) (jsEuclidMod_lt _ m hm) (k2 - k1 + 1) ?_
  rw [h1, h2]
  push_cast
  ring

lemma jsEuclidMod_sub_period (a m : ℚ) (hm : 0 < m) :
    jsEuclidMod (a - m) m = jsEuclidMod a m := by
  have h := jsEuclidMod_add_period (a - m) m hm
  rw [sub_add_cancel] at h
  exact h.symm

/-- The per-panel wrapped base position computed in the animate loop:
`baseX = i * slideUnit - currentPosition`, wrapped with
`((baseX % totalWidth) + totalWidth) % totalWidth`, then reduced by
`totalWidth` when it exceeds `totalWidth / 2`. -/
def slideBaseX (i : ℕ) (slideUnit pos totalWidth : ℚ) : ℚ :=
  let baseX := (i : ℚ) * slideUnit - pos
  let wrapped := jsEuclidMod baseX totalWidth
  if totalWidth / 2 < wrapped then wrapped - totalWidth else wrapped

/-- The `settings.slideLerp` constant. -/
def slideLerp : ℚ := 0.075

/-- The per-panel position update of the animate loop: wrap-jump detection
against the previously stored `targetX` (difference above `2 * slideWidth`
snaps `currentX` to `baseX`), then `targetX := baseX` and a lerp of
`currentX` toward `targetX`. Returns the pair `(targetX, currentX)`. -/
def slideUpdate (slideWidth prevTargetX prevCurrentX baseX : ℚ) : ℚ × ℚ :=
  let cx0 := if slideWidth * 2 < |baseX - prevTargetX| then baseX else prevCurrentX
  (baseX, cx0 + (baseX - cx0) * slideLerp)

lemma slideBaseX_range (i : ℕ) (u pos W : ℚ) (hW : 0 < W) :
    -(W / 2) < slideBaseX i u pos W ∧ slideBaseX i u pos W ≤ W / 2 := by
  unfold slideBaseX
  have h0 : 0 ≤ jsEuclidMod ((i : ℚ) * u - pos) W := jsEuclidMod_nonneg _ W hW
  have h1 : jsEuclidMod ((i : ℚ) * u - pos) W < W := jsEuclidMod_lt _ W hW
  by_cases hc : W / 2 < jsEuclidMod ((i : ℚ) * u - pos) W
  · simp only [hc, if_true]
    constructor <;> linarith
  · simp only [hc, if_false]
    push_neg at hc
    constructor <;> linarith

lemma ceil_as_floor (q : ℚ) : ⌈q⌉ = -⌊-q⌋ := by rw [Int.floor_neg, neg_neg]

lemma abs_eval (q : ℚ) : |q| = if q < 0 then -q else q := by
  rcases lt_or_le q 0 with h | h
  · simp [abs_of_neg h, h]
  · simp [abs_of_nonneg h, not_lt.mpr h]

/-- C1. Wrap invariant: for every panel index and every scroll position, the
wrapped base position computed by the animate loop — the non-negative
remainder of `i * (slideWidth + gap) - currentPosition` modulo
`totalWidth = slideCount * (slideWidth + gap)`, reduced by `totalWidth` when
it exceeds `totalWidth / 2` — lies in `(-totalWidth / 2, totalWidth / 2]`,
and the panel's `targetX` is exactly that value, hence lies there too. -/
theorem wrap_targetX_half_open_range (slideCount : ℕ) (slideWidth gap pos : ℚ)
    (i : ℕ) (prevTargetX prevCurrentX : ℚ)
    (h : 0 < (slideCount : ℚ) * (slideWidth + gap)) :
    -((slideCount : ℚ) * (slideWidth + gap) / 2) <
      slideBaseX i (slideWidth + gap) pos ((slideCount : ℚ) * (slideWidth + gap)) ∧
    slideBaseX i (slideWidth + gap) pos ((slideCount : ℚ) * (slideWidth + gap)) ≤
      (slideCount : ℚ) * (slideWidth + gap) / 2 ∧
    (slideUpdate slideWidth prevTargetX prevCurrentX
      (slideBaseX i (slideWidth + gap) pos ((slideCount : ℚ) * (slideWidth + gap)))).1 =
      slideBaseX i (slideWidth + gap) pos ((slideCount : ℚ) * (slideWidth + gap)) := by
  obtain ⟨h1, h2⟩ := slideBaseX_range i (slideWidth + gap) pos _ h
  exact ⟨h1, h2, rfl⟩

/-- Witness for C1 at the configured defaults: 10 panels of width 3.0 with
gap 0.1 (total width 31), panel 3, scroll position 7. -/
theorem wrap_targetX_half_open_range_witness :
    (0 : ℚ) < ((10 : ℕ) : ℚ) * (3 + 0.1) ∧
    (-(((10 : ℕ) : ℚ) * (3 + 0.1) / 2) <
      slideBaseX 3 (3 + 0.1) 7 (((10 : ℕ) : ℚ) * (3 + 0.1)) ∧
    slideBaseX 3 (3 + 0.1) 7 (((10 : ℕ) : ℚ) * (3 + 0.1)) ≤
      ((10 : ℕ) : ℚ) * (3 + 0.1) / 2 ∧
    (slideUpdate 3 15 15 (slideBaseX 3 (3 + 0.1) 7 (((10 : ℕ) : ℚ) * (3 + 0.1)))).1 =
      slideBaseX 3 (3 + 0.1) 7 (((10 : ℕ) : ℚ) * (3 + 0.1))) :=
  ⟨by norm_num, wrap_targetX_half_open_range 10 3 0.1 7 3 15 15 (by norm_num)⟩

/-- C7. Wrap-jump suppression: when the newly computed wrapped value differs
from the previously stored `targetX` by more than `2 * slideWidth`, the
update writes `currentX := baseX` directly (the subsequent lerp is then a
no-op, so `currentX` ends exactly at the wrapped value); otherwise
`currentX` only moves toward `targetX` by the `slideLerp` factor. -/
theorem wrap_jump_suppression (slideWidth prevTargetX prevCurrentX baseX : ℚ) :
    (slideWidth * 2 < |baseX - prevTargetX| →
      slideUpdate slideWidth prevTargetX prevCurrentX baseX = (baseX, baseX)) ∧
    (|baseX - prevTargetX| ≤ slideWidth * 2 →
      slideUpdate slideWidth prevTargetX prevCurrentX baseX =
        (baseX, prevCurrentX + (baseX - prevCurrentX) * slideLerp)) := by
  simp only [slideUpdate]
  constructor
  · intro hjump
    rw [if_pos hjump]
    have hz : baseX + (baseX - baseX) * slideLerp = baseX := by ring
    rw [hz]
  · intro hsmall
    rw [if_neg (not_lt.mpr hsmall)]

/-- Witness for C7 at the spec's concrete scenario: `slideWidth = 3`,
previous `targetX = 15.0`, new wrapped value `-15.5`; the difference `30.5`
exceeds `2 * slideWidth = 6`, and `currentX` is set directly to `-15.5`. -/
theorem wrap_jump_suppression_witness :
    ((3 : ℚ) * 2 < |(-15.5 : ℚ) - 15|) ∧
    slideUpdate 3 15 14.9 (-15.5) = (-15.5, -15.5) :=
  ⟨by norm_num [abs_eval],
   (wrap_jump_suppression 3 15 14.9 (-15.5)).1 (by norm_num [abs_eval])⟩

/-- C10. Periodicity of the wrap layout: the wrapped base position computed
at scroll offset `pos + totalWidth` (and at `pos - totalWidth`) equals the
one computed at `pos`; the layout map is periodic in the scroll offset with
period `totalWidth`. -/
theorem wrap_layout_periodic (i : ℕ) (u pos W : ℚ) (hW : 0 < W) :
    slideBaseX i u (pos + W) W = slideBaseX i u pos W ∧
    slideBaseX i u (pos - W) W = slideBaseX i u pos W := by
  have h1 : (i : ℚ) * u - (pos + W) = ((i : ℚ) * u - pos) - W := by ring
  have h2 : (i : ℚ) * u - (pos - W) = ((i : ℚ) * u - pos) + W := by ring
  simp only [slideBaseX]
  rw [h1, h2, jsEuclidMod_sub_period _ W hW, jsEuclidMod_add_period _ W hW]
  exact ⟨rfl, rfl⟩

/-- Witness for C10 with the default total width 31. -/
theorem wrap_layout_periodic_witness :
    (0 : ℚ) < 31 ∧
    (slideBaseX 2 3.1 (5 + 31) 31 = slideBaseX 2 3.1 5 31 ∧
     slideBaseX 2 3.1 (5 - 31) 31 = slideBaseX 2 3.1 5 31) :=
  ⟨by norm_num, wrap_layout_periodic 2 3.1 5 31 (by norm_num)⟩

/-- The guarded velocity ratio of the animate loop:
`peakVelocity.current > 0.001 ? avgVelocity / peakVelocity.current : 0`.
Shared verbatim by both component variants. -/
def velocityRatioOf (peak avg : ℚ) : ℚ := if 0.001 < peak then avg / peak else 0

/-- The deceleration classifier of the animate loop:
`velocityRatio < 0.7 && peakVelocity.current > 0.5`. -/
def isDeceleratingOf (peak avg : ℚ) : Prop :=
  velocityRatioOf peak avg < 0.7 ∧ 0.5 < peak

instance (peak avg : ℚ) : Decidable (isDeceleratingOf peak avg) := by
  unfold isDeceleratingOf
  infer_instance

namespace Drag

/-- Settings of ThreeSliderDraggable.tsx. -/
def dragSensitivity : ℚ := 0.02

def momentumMultiplier : ℚ := 2

def smoothing : ℚ := 0.1

def distortionDecay : ℚ := 0.95

def distortionSensitivity : ℚ := 0.15

def distortionSmoothing : ℚ := 0.075

/-- The mutable engine state of ThreeSliderDraggable.tsx (the refs mutated by
the animate loop and the mouse/keyboard handlers). -/
structure State where
  currentPosition : ℚ
  targetPosition : ℚ
  isDragging : Bool
  dragStartX : ℚ
  dragLastX : ℚ
  autoScrollSpeed : ℚ
  prevPosition : ℚ
  currentDistortionFactor : ℚ
  targetDistortionFactor : ℚ
  peakVelocity : ℚ
  velocityHistory : List ℚ
deriving DecidableEq

/-- The momentum block at the top of animate: when not dragging and the speed
exceeds 0.001, add it to the target, decay it by
`max (0.92, 0.97 - |speed| * 0.5)` and snap it to 0 below 0.001; when not
dragging otherwise set it to 0; while dragging neither branch runs. Returns
the updated `(targetPosition, autoScrollSpeed)`. -/
def momentumOf (s : State) : ℚ × ℚ :=
  if s.isDragging = false ∧ 0.001 < |s.autoScrollSpeed| then
    let a1 := s.autoScrollSpeed * max 0.92 (0.97 - |s.autoScrollSpeed| * 0.5)
    (s.targetPosition + s.autoScrollSpeed, if |a1| < 0.001 then 0 else a1)
  else if s.isDragging = false then (s.targetPosition, 0)
  else (s.targetPosition, s.autoScrollSpeed)

/-- Position smoothing:
`currentPosition += (targetPosition - currentPosition) * settings.smoothing`,
with the target already updated by the momentum block. -/
def newCurrentPosition (s : State) : ℚ :=
  s.currentPosition + ((momentumOf s).1 - s.currentPosition) * smoothing

/-- Instantaneous velocity of this frame:
`Math.max(0, Math.abs(currentPosition - prevPosition) / deltaTime)`. -/
def currentVelocityOf (s : State) (dt : ℚ) : ℚ :=
  max 0 (|newCurrentPosition s - s.currentPosition| / dt)

/-- Velocity history update: push the new value, shift the oldest out. -/
def newHistoryOf (s : State) (dt : ℚ) : List ℚ :=
  (s.velocityHistory ++ [currentVelocityOf s dt]).tail

/-- Mean of the updated velocity history. -/
def avgVelocityOf (s : State) (dt : ℚ) : ℚ :=
  (newHistoryOf s dt).sum / ((newHistoryOf s dt).length : ℚ)

/-- Peak-velocity tracker after the conditional max update. -/
def peakAfterMax (s : State) (dt : ℚ) : ℚ :=
  if s.peakVelocity < avgVelocityOf s dt then avgVelocityOf s dt
  else s.peakVelocity

/-- `movementDistortion = Math.min(1.0, currentVelocity * 0.15)`. -/
def movementDistortionOf (s : State) (dt : ℚ) : ℚ :=
  min 1 (currentVelocityOf s dt * distortionSensitivity)

/-- The distortion rise step: raise the target factor to the movement
distortion when `currentVelocity > 0.05` or a drag is active. -/
def tdfAfterRise (s : State) (dt : ℚ) : ℚ :=
  if 0.05 < currentVelocityOf s dt ∨ s.isDragging = true then
    max s.targetDistortionFactor (movementDistortionOf s dt)
  else s.targetDistortionFactor

/-- The decay-rate selection of ThreeSliderDraggable.tsx:
`isDecelerating || avgVelocity < 0.2 || !isDragging ? distortionDecay
 : distortionDecay * 0.98`. -/
def decayRateOf (s : State) (dt : ℚ) : ℚ :=
  if isDeceleratingOf (peakAfterMax s dt) (avgVelocityOf s dt) ∨
      avgVelocityOf s dt < 0.2 ∨ s.isDragging = false then
    distortionDecay
  else distortionDecay * 0.98

/-- One pass of the animate loop of ThreeSliderDraggable.tsx over the scalar
engine state, parametrized by the measured `deltaTime`. -/
def frameStep (s : State) (dt : ℚ) : State :=
  { s with
    prevPosition := s.currentPosition
    targetPosition := (momentumOf s).1
    autoScrollSpeed := (momentumOf s).2
    currentPosition := newCurrentPosition s
    velocityHistory := newHistoryOf s dt
    peakVelocity := peakAfterMax s dt * 0.99
    targetDistortionFactor := tdfAfterRise s dt * decayRateOf s dt
    currentDistortionFactor := s.currentDistortionFactor +
      (tdfAfterRise s dt * decayRateOf s dt - s.currentDistortionFactor) *
        distortionSmoothing }

/-- Input events of ThreeSliderDraggable.tsx. A `mouseDown` event stands for
a press whose raycast hit a slide (the handler body only runs then); `frame`
carries the measured `deltaTime` of an animate tick. -/
inductive Event
  | mouseDown (x : ℚ)
  | mouseMove (x : ℚ)
  | mouseUp (x : ℚ)
  | arrowLeft
  | arrowRight
  | frame (dt : ℚ)

/-- Effect of one event on the engine state; `slideUnit` is the configured
`slideWidth + gap` used by the arrow-key handler. -/
def eventStep (slideUnit : ℚ) (s : State) : Event → State
  | .mouseDown x =>
      { s with
        isDragging := true
        dragStartX := x
        dragLastX := x
        autoScrollSpeed := 0
        peakVelocity := 0 }
  | .mouseMove x =>
      if s.isDragging then
        let deltaX := x - s.dragLastX
        { s with
          dragLastX := x
          targetDistortionFactor :=
            min 1 (s.targetDistortionFactor + min (|deltaX| * 0.02) 1)
          targetPosition := s.targetPosition - deltaX * dragSensitivity }
      else s
  | .mouseUp _ =>
      if s.isDragging then
        let velocity := (s.dragLastX - s.dragStartX) * 0.005
        if 0.5 < |velocity| then
          { s with
            isDragging := false
            autoScrollSpeed := -velocity * momentumMultiplier * 0.05
            targetDistortionFactor :=
              min 1 (s.targetDistortionFactor +
                |velocity| * distortionSensitivity * 1.5) }
        else { s with isDragging := false }
      else s
  | .arrowLeft =>
      { s with
        targetPosition := s.targetPosition + slideUnit
        targetDistortionFactor := min 1 (s.targetDistortionFactor + 0.3) }
  | .arrowRight =>
      { s with
        targetPosition := s.targetPosition - slideUnit
        targetDistortionFactor := min 1 (s.targetDistortionFactor + 0.3) }
  | .frame dt => frameStep s dt

/-- Run a sequence of events. -/
def run (slideUnit : ℚ) (s : State) : List Event → State
  | [] => s
  | e :: es => run slideUnit (eventStep slideUnit s e) es

/-- The largest value `targetDistortionFactor` attains along a run,
including the initial state. -/
def tdfSup (slideUnit : ℚ) (s : State) : List Event → ℚ
  | [] => s.targetDistortionFactor
  | e :: es =>
      max s.targetDistortionFactor (tdfSup slideUnit (eventStep slideUnit s e) es)

/-- A frame event must carry a positive `deltaTime`; other events are
unconstrained. -/
def eventValid : Event → Prop
  | .frame dt => 0 < dt
  | _ => True

instance : DecidablePred eventValid := fun e =>
  match e with
  | .mouseDown _ => .isTrue trivial
  | .mouseMove _ => .isTrue trivial
  | .mouseUp _ => .isTrue trivial
  | .arrowLeft => .isTrue trivial
  | .arrowRight => .isTrue trivial
  | .frame dt => inferInstanceAs (Decidable (0 < dt))

def ValidEvents (l : List Event) : Prop := ∀ e ∈ l, eventValid e

end Drag

namespace Wheel

/-- Settings of the wheel/touch variant in ThreeSlider.tsx. -/
def wheelSensitivity : ℚ := 0.01

def touchSensitivity : ℚ := 0.01

def momentumMultiplier : ℚ := 2

def smoothing : ℚ := 0.1

def distortionDecay : ℚ := 0.95

def distortionSensitivity : ℚ := 0.15

def distortionSmoothing : ℚ := 0.075

/-- `Math.sign` of JavaScript. -/
def jsSign (q : ℚ) : ℚ := if 0 < q then 1 else if q < 0 then -1 else 0

/-- The mutable engine state of the wheel/touch variant in ThreeSlider.tsx. -/
structure State where
  currentPosition : ℚ
  targetPosition : ℚ
  isScrolling : Bool
  autoScrollSpeed : ℚ
  touchStartX : ℚ
  touchLastX : ℚ
  prevPosition : ℚ
  currentDistortionFactor : ℚ
  targetDistortionFactor : ℚ
  peakVelocity : ℚ
  velocityHistory : List ℚ
deriving DecidableEq

/-- The momentum block of this variant: guarded only by `isScrolling` (no
speed threshold in the condition and no else branch), adding the speed to
the target, decaying it and snapping it to 0 below 0.001. Returns the
updated `(targetPosition, autoScrollSpeed)`. -/
def momentumOf (s : State) : ℚ × ℚ :=
  if s.isScrolling = true then
    let a1 := s.autoScrollSpeed * max 0.92 (0.97 - |s.autoScrollSpeed| * 0.5)
    (s.targetPosition + s.autoScrollSpeed, if |a1| < 0.001 then 0 else a1)
  else (s.targetPosition, s.autoScrollSpeed)

/-- Position smoothing of this variant. -/
def newCurrentPosition (s : State) : ℚ :=
  s.currentPosition + ((momentumOf s).1 - s.currentPosition) * smoothing

/-- Instantaneous velocity of this frame:
`Math.abs(currentPosition - prevPosition) / deltaTime` (this variant has no
outer `Math.max(0, _)`). -/
def currentVelocityOf (s : State) (dt : ℚ) : ℚ :=
  |newCurrentPosition s - s.currentPosition| / dt

/-- Velocity history update: push the new value, shift the oldest out. -/
def newHistoryOf (s : State) (dt : ℚ) : List ℚ :=
  (s.velocityHistory ++ [currentVelocityOf s dt]).tail

/-- Mean of the updated velocity history. -/
def avgVelocityOf (s : State) (dt : ℚ) : ℚ :=
  (newHistoryOf s dt).sum / ((newHistoryOf s dt).length : ℚ)

/-- Peak-velocity tracker after the conditional max update. -/
def peakAfterMax (s : State) (dt : ℚ) : ℚ :=
  if s.peakVelocity < avgVelocityOf s dt then avgVelocityOf s dt
  else s.peakVelocity

/-- `movementDistortion = Math.min(1.0, currentVelocity * 0.15)`. -/
def movementDistortionOf (s : State) (dt : ℚ) : ℚ :=
  min 1 (currentVelocityOf s dt * distortionSensitivity)

/-- The distortion rise step of this variant: gated on
`currentVelocity > 0.05` only. -/
def tdfAfterRise (s : State) (dt : ℚ) : ℚ :=
  if 0.05 < currentVelocityOf s dt then
    max s.targetDistortionFactor (movementDistortionOf s dt)
  else s.targetDistortionFactor

/-- The decay-rate selection of this variant:
`isDecelerating || avgVelocity < 0.2 ? distortionDecay
 : distortionDecay * 0.9`. -/
def decayRateOf (s : State) (dt : ℚ) : ℚ :=
  if isDeceleratingOf (peakAfterMax s dt) (avgVelocityOf s dt) ∨
      avgVelocityOf s dt < 0.2 then
    distortionDecay
  else distortionDecay * 0.9

/-- One pass of the animate loop of the wheel/touch variant over the scalar
engine state, parametrized by the measured `deltaTime`. -/
def frameStep (s : State) (dt : ℚ) : State :=
  { s with
    prevPosition := s.currentPosition
    targetPosition := (momentumOf s).1
    autoScrollSpeed := (momentumOf s).2
    currentPosition := newCurrentPosition s
    velocityHistory := newHistoryOf s dt
    peakVelocity := peakAfterMax s dt * 0.99
    targetDistortionFactor := tdfAfterRise s dt * decayRateOf s dt
    currentDistortionFactor := s.currentDistortionFactor +
      (tdfAfterRise s dt * decayRateOf s dt - s.currentDistortionFactor) *
        distortionSmoothing }

/-- Input events of the wheel/touch variant. `scrollTimeout` is the trailing
150 ms timer after a wheel event and `touchTimeout` the 800 ms timer after a
touch release, both clearing `isScrolling`; `frame` carries the measured
`deltaTime` of an animate tick. -/
inductive Event
  | wheel (deltaY : ℚ)
  | scrollTimeout
  | arrowLeft
  | arrowRight
  | touchStart (x : ℚ)
  | touchMove (x : ℚ)
  | touchEnd
  | touchTimeout
  | frame (dt : ℚ)

/-- Effect of one event on the engine state; `slideUnit` is the configured
`slideWidth + gap` used by the arrow-key handler. -/
def eventStep (slideUnit : ℚ) (s : State) : Event → State
  | .wheel dy =>
      { s with
        targetDistortionFactor :=
          min 1 (s.targetDistortionFactor + min (|dy| * 0.001) 1)
        targetPosition := s.targetPosition - dy * wheelSensitivity
        isScrolling := true
        autoScrollSpeed := min (|dy| * 0.0005) 0.05 * jsSign dy }
  | .scrollTimeout => { s with isScrolling := false }
  | .arrowLeft =>
      { s with
        targetPosition := s.targetPosition + slideUnit
        targetDistortionFactor := min 1 (s.targetDistortionFactor + 0.3) }
  | .arrowRight =>
      { s with
        targetPosition := s.targetPosition - slideUnit
        targetDistortionFactor := min 1 (s.targetDistortionFactor + 0.3) }
  | .touchStart x =>
      { s with
        touchStartX := x
        touchLastX := x
        isScrolling := false
        autoScrollSpeed := 0
        peakVelocity := 0 }
  | .touchMove x =>
      let deltaX := x - s.touchLastX
      { s with
        touchLastX := x
        targetDistortionFactor :=
          min 1 (s.targetDistortionFactor + min (|deltaX| * 0.02) 1)
        targetPosition := s.targetPosition - deltaX * touchSensitivity
        isScrolling := true }
  | .touchEnd =>
      let velocity := (s.touchLastX - s.touchStartX) * 0.005
      if 0.5 < |velocity| then
        { s with
          autoScrollSpeed := -velocity * momentumMultiplier * 0.05
          targetDistortionFactor :=
            min 1 (|velocity| * 3 * distortionSensitivity)
          isScrolling := true }
      else { s with isScrolling := true }
  | .touchTimeout => { s with isScrolling := false }
  | .frame dt => frameStep s dt

/-- Run a sequence of events. -/
def run (slideUnit : ℚ) (s : State) : List Event → State
  | [] => s
  | e :: es => run slideUnit (eventStep slideUnit s e) es

/-- The largest value `targetDistortionFactor` attains along a run,
including the initial state. -/
def tdfSup (slideUnit : ℚ) (s : State) : List Event → ℚ
  | [] => s.targetDistortionFactor
  | e :: es =>
      max s.targetDistortionFactor (tdfSup slideUnit (eventStep slideUnit s e) es)

/-- A frame event must carry a positive `deltaTime`; other events are
unconstrained. -/
def eventValid : Event → Prop
  | .frame dt => 0 < dt
  | _ => True

instance : DecidablePred eventValid := fun e =>
  match e with
  | .wheel _ => .isTrue trivial
  | .scrollTimeout => .isTrue trivial
  | .arrowLeft => .isTrue trivial
  | .arrowRight => .isTrue trivial
  | .touchStart _ => .isTrue trivial
  | .touchMove _ => .isTrue trivial
  | .touchEnd => .isTrue trivial
  | .touchTimeout => .isTrue trivial
  | .frame dt => inferInstanceAs (Decidable (0 < dt))

def ValidEvents (l : List Event) : Prop := ∀ e ∈ l, eventValid e

end Wheel

/-- A state with the target position away from the current position and no
momentum, used to examine a frame with `deltaTime = 0`. -/
def cexDeltaZero : Drag.State :=
  { currentPosition := 0
    targetPosition := 1
    isDragging := false
    dragStartX := 0
    dragLastX := 0
    autoScrollSpeed := 0
    prevPosition := 0
    currentDistortionFactor := 0
    targetDistortionFactor := 0
    peakVelocity := 0
    velocityHistory := [0, 0, 0, 0, 0] }

/-- C2 (counterexample). A frame update invoked with `deltaTime = 0` does not
leave `currentPosition` unchanged: with `targetPosition = 1` and
`currentPosition = 0` the smoothing step still moves the position to `0.1`,
because the position smoothing does not involve `deltaTime` at all. -/
theorem zero_delta_time_still_moves_position :
    cexDeltaZero.targetPosition ≠ cexDeltaZero.currentPosition ∧
    (Drag.frameStep cexDeltaZero 0).currentPosition = 0.1 ∧
    ¬((Drag.frameStep cexDeltaZero 0).currentPosition =
        cexDeltaZero.currentPosition) := by
  norm_num [Drag.frameStep, Drag.newCurrentPosition, Drag.momentumOf,
    Drag.smoothing, cexDeltaZero, abs_eval]

/-- C2 (amended). The position smoothing of the frame update is independent
of `deltaTime`: a frame with `deltaTime = 0` changes `currentPosition`
exactly as any other frame, moving it toward the (post-momentum) target by
the smoothing factor 0.1; it is unchanged only when that target equals the
current position. There is no `deltaTime` guard in the code path. -/
theorem frame_position_update_ignores_delta_time (s : Drag.State) (dt1 dt2 : ℚ) :
    (Drag.frameStep s dt1).currentPosition = (Drag.frameStep s dt2).currentPosition ∧
    (Drag.frameStep s 0).currentPosition =
      s.currentPosition +
        ((Drag.frameStep s 0).targetPosition - s.currentPosition) * Drag.smoothing := by
  constructor
  · simp [Drag.frameStep]
  · simp [Drag.frameStep, Drag.newCurrentPosition]

/-- A state in the middle of a drag that still carries a (hypothetical)
non-zero momentum value. -/
def cexDragMomentum : Drag.State :=
  { currentPosition := 0
    targetPosition := 0
    isDragging := true
    dragStartX := 0
    dragLastX := 0
    autoScrollSpeed := 0.5
    prevPosition := 0
    currentDistortionFactor := 0
    targetDistortionFactor := 0
    peakVelocity := 0
    velocityHistory := [0, 0, 0, 0, 0] }

/-- C4 (counterexample). While a drag is in progress the frame update does
not force `autoScrollSpeed` to 0: with `isDragging = true` and
`autoScrollSpeed = 0.5` the speed is left untouched at `0.5` (the
`else if (!isDragging)` branch does not fire). -/
theorem momentum_not_zeroed_while_dragging :
    cexDragMomentum.isDragging = true ∧
    (Drag.frameStep cexDragMomentum 0.016).autoScrollSpeed = 0.5 ∧
    ¬((Drag.frameStep cexDragMomentum 0.016).autoScrollSpeed = 0) := by
  norm_num [Drag.frameStep, Drag.momentumOf, cexDragMomentum]

/-- C4 (amended). The momentum integration of the frame update: when no drag
is active and `|autoScrollSpeed| > 0.001`, the speed is added to
`targetPosition`, multiplied by `max (0.92, 0.97 - |autoScrollSpeed| * 0.5)`
and snapped to exactly 0 when the decayed magnitude falls below 0.001; when
no drag is active otherwise, the speed is forced to 0; while a drag is in
progress both the speed and the target are left unchanged (the mousedown
handler, not the frame update, zeroes the momentum when a drag begins). -/
theorem momentum_step_characterization (s : Drag.State) (dt : ℚ) :
    (s.isDragging = false → 0.001 < |s.autoScrollSpeed| →
      (Drag.frameStep s dt).targetPosition = s.targetPosition + s.autoScrollSpeed ∧
      (Drag.frameStep s dt).autoScrollSpeed =
        (if |s.autoScrollSpeed * max 0.92 (0.97 - |s.autoScrollSpeed| * 0.5)| < 0.001
         then 0
         else s.autoScrollSpeed * max 0.92 (0.97 - |s.autoScrollSpeed| * 0.5))) ∧
    (s.isDragging = false → |s.autoScrollSpeed| ≤ 0.001 →
      (Drag.frameStep s dt).targetPosition = s.targetPosition ∧
      (Drag.frameStep s dt).autoScrollSpeed = 0) ∧
    (s.isDragging = true →
      (Drag.frameStep s dt).targetPosition = s.targetPosition ∧
      (Drag.frameStep s dt).autoScrollSpeed = s.autoScrollSpeed) := by
  refine ⟨fun h1 h2 => ?_, fun h1 h2 => ?_, fun h1 => ?_⟩
  · simp [Drag.frameStep, Drag.momentumOf, h1, h2]
  · simp [Drag.frameStep, Drag.momentumOf, h1, not_lt.mpr h2]
  · simp [Drag.frameStep, Drag.momentumOf, h1]

/-- A non-dragging state with active momentum. -/
def momentumActive : Drag.State :=
  { cexDragMomentum with isDragging := false }

/-- A non-dragging state with negligible momentum. -/
def momentumTiny : Drag.State :=
  { cexDragMomentum with isDragging := false, autoScrollSpeed := 0.0005 }

/-- Witness for the amended C4, exercising all three momentum branches. -/
theorem momentum_step_characterization_witness :
    ((Drag.frameStep momentumActive 1).targetPosition =
        momentumActive.targetPosition + momentumActive.autoScrollSpeed ∧
      (Drag.frameStep momentumActive 1).autoScrollSpeed =
        (if |momentumActive.autoScrollSpeed *
              max 0.92 (0.97 - |momentumActive.autoScrollSpeed| * 0.5)| < 0.001
         then 0
         else momentumActive.autoScrollSpeed *
           max 0.92 (0.97 - |momentumActive.autoScrollSpeed| * 0.5))) ∧
    ((Drag.frameStep momentumTiny 1).targetPosition = momentumTiny.targetPosition ∧
      (Drag.frameStep momentumTiny 1).autoScrollSpeed = 0) ∧
    ((Drag.frameStep cexDragMomentum 1).targetPosition =
        cexDragMomentum.targetPosition ∧
      (Drag.frameStep cexDragMomentum 1).autoScrollSpeed =
        cexDragMomentum.autoScrollSpeed) :=
  ⟨(momentum_step_characterization momentumActive 1).1 rfl
      (by norm_num [momentumActive, cexDragMomentum, abs_eval]),
   (momentum_step_characterization momentumTiny 1).2.1 rfl
      (by norm_num [momentumTiny, cexDragMomentum, abs_eval]),
   (momentum_step_characterization cexDragMomentum 1).2.2 rfl⟩

/-- A resting state whose next frame produces a small instantaneous velocity
(0.06) while the five-slot average stays at 0.012, below the 0.05 gate. -/
def cexLowAvg : Drag.State :=
  { currentPosition := 0
    targetPosition := 0.6
    isDragging := false
    dragStartX := 0
    dragLastX := 0
    autoScrollSpeed := 0
    prevPosition := 0
    currentDistortionFactor := 0
    targetDistortionFactor := 0
    peakVelocity := 0
    velocityHistory := [0, 0, 0, 0, 0] }

/-- C5 (counterexample). The rise rule is gated on the instantaneous
`currentVelocity`, not on `avgVelocity` as the claim states: here
`avgVelocity = 0.012 ≤ 0.05` and no drag is active, so by the claim the
target distortion factor (initially 0) could only change through the decay
multiplication and would remain 0, yet the frame update raises it to
`min (1, 0.06 * 0.15) * 0.95 = 0.00855`. -/
theorem low_avg_velocity_still_raises_distortion :
    cexLowAvg.isDragging = false ∧
    Drag.avgVelocityOf cexLowAvg 1 ≤ 0.05 ∧
    cexLowAvg.targetDistortionFactor = 0 ∧
    (Drag.frameStep cexLowAvg 1).targetDistortionFactor = 171 / 20000 ∧
    ¬((Drag.frameStep cexLowAvg 1).targetDistortionFactor = 0) := by
  norm_num [Drag.frameStep, Drag.tdfAfterRise, Drag.decayRateOf,
    Drag.movementDistortionOf, Drag.avgVelocityOf, Drag.newHistoryOf,
    Drag.currentVelocityOf, Drag.peakAfterMax, Drag.newCurrentPosition,
    Drag.momentumOf, Drag.smoothing, Drag.distortionDecay,
    Drag.distortionSensitivity, isDeceleratingOf, velocityRatioOf,
    cexLowAvg, abs_eval]

/-- C5 (amended). Distortion rise rule: on each frame update, if the
instantaneous `currentVelocity` of this frame exceeds 0.05 or a drag is
active, the target distortion factor is raised to
`max (targetDistortionFactor, min (1, currentVelocity * 0.15))`; otherwise
the rise step leaves it unchanged. The rise step never lowers the factor,
and the frame then multiplies the risen value by the decay rate. -/
theorem distortion_rise_uses_current_velocity (s : Drag.State) (dt : ℚ) :
    ((0.05 < Drag.currentVelocityOf s dt ∨ s.isDragging = true) →
      Drag.tdfAfterRise s dt =
        max s.targetDistortionFactor
          (min 1 (Drag.currentVelocityOf s dt * 0.15))) ∧
    (¬(0.05 < Drag.currentVelocityOf s dt ∨ s.isDragging = true) →
      Drag.tdfAfterRise s dt = s.targetDistortionFactor) ∧
    s.targetDistortionFactor ≤ Drag.tdfAfterRise s dt ∧
    (Drag.frameStep s dt).targetDistortionFactor =
      Drag.tdfAfterRise s dt * Drag.decayRateOf s dt := by
  refine ⟨fun h => ?_, fun h => ?_, ?_, ?_⟩
  · simp [Drag.tdfAfterRise, Drag.movementDistortionOf,
      Drag.distortionSensitivity, h]
  · simp [Drag.tdfAfterRise, h]
  · unfold Drag.tdfAfterRise
    by_cases h : 0.05 < Drag.currentVelocityOf s dt ∨ s.isDragging = true
    · rw [if_pos h]
      exact le_max_left _ _
    · rw [if_neg h]
  · simp [Drag.frameStep]

/-- A state at rest: the next frame has zero velocity and no drag. -/
def restState : Drag.State :=
  { cexLowAvg with targetPosition := 0 }

/-- Witness for the amended C5, exercising the rising branch (instantaneous
velocity 0.06 > 0.05) and the idle branch (velocity 0). -/
theorem distortion_rise_uses_current_velocity_witness :
    ((0.05 < Drag.currentVelocityOf cexLowAvg 1 ∨ cexLowAvg.isDragging = true) ∧
      Drag.tdfAfterRise cexLowAvg 1 =
        max cexLowAvg.targetDistortionFactor
          (min 1 (Drag.currentVelocityOf cexLowAvg 1 * 0.15))) ∧
    (¬(0.05 < Drag.currentVelocityOf restState 1 ∨ restState.isDragging = true) ∧
      Drag.tdfAfterRise restState 1 = restState.targetDistortionFactor) := by
  have h1 : 0.05 < Drag.currentVelocityOf cexLowAvg 1 := by
    norm_num [Drag.currentVelocityOf, Drag.newCurrentPosition, Drag.momentumOf,
      Drag.smoothing, cexLowAvg, abs_eval]
  have h2 : ¬(0.05 < Drag.currentVelocityOf restState 1 ∨
      restState.isDragging = true) := by
    norm_num [Drag.currentVelocityOf, Drag.newCurrentPosition, Drag.momentumOf,
      Drag.smoothing, restState, cexLowAvg, abs_eval]
  exact ⟨⟨Or.inl h1,
      (distortion_rise_uses_current_velocity cexLowAvg 1).1 (Or.inl h1)⟩,
    ⟨h2, (distortion_rise_uses_current_velocity restState 1).2.1 h2⟩⟩

/-- A state moving fast during an active drag: average velocity 2, not
decelerating, so the decay-rate selection takes its second branch. -/
def cexFastMove : Drag.State :=
  { currentPosition := 0
    targetPosition := 20
    isDragging := true
    dragStartX := 0
    dragLastX := 0
    autoScrollSpeed := 0
    prevPosition := 0
    currentDistortionFactor := 0
    targetDistortionFactor := 1
    peakVelocity := 2
    velocityHistory := [2, 2, 2, 2, 2] }

/-- C6 (code behavior at the failing input). In the actively-moving-fast
case — not decelerating, `avgVelocity = 2 ≥ 0.2`, drag active — the decay
multiplier applied to the target distortion factor is
`0.95 * 0.98 = 0.931`, which is strictly SMALLER than the fast constant
0.95: distortion decays faster, not more slowly, while actively moving
fast, contradicting the claim and the code's own comment ("Slower decay
otherwise"). With the target factor at 1 the frame leaves it at 0.931. -/
theorem decay_rate_smaller_when_moving_fast :
    cexFastMove.isDragging = true ∧
    ¬ isDeceleratingOf (Drag.peakAfterMax cexFastMove 1)
        (Drag.avgVelocityOf cexFastMove 1) ∧
    ¬ (Drag.avgVelocityOf cexFastMove 1 < 0.2) ∧
    Drag.decayRateOf cexFastMove 1 = Drag.distortionDecay * 0.98 ∧
    Drag.decayRateOf cexFastMove 1 < Drag.distortionDecay ∧
    (Drag.frameStep cexFastMove 1).targetDistortionFactor = 0.931 := by
  norm_num [Drag.frameStep, Drag.tdfAfterRise, Drag.decayRateOf,
    Drag.movementDistortionOf, Drag.avgVelocityOf, Drag.newHistoryOf,
    Drag.currentVelocityOf, Drag.peakAfterMax, Drag.newCurrentPosition,
    Drag.momentumOf, Drag.smoothing, Drag.distortionDecay,
    Drag.distortionSensitivity, isDeceleratingOf, velocityRatioOf,
    cexFastMove, abs_eval]

/-- C8. Deceleration-classification guard: when the peak velocity is at or
below 0.001 the velocity ratio is defined to be 0 instead of performing the
division; when it is above 0.001 the denominator is provably non-zero and
the ratio is the exact quotient; `isDecelerating` is precisely
`ratio < 0.7 AND peak > 0.5`. -/
theorem velocity_ratio_guard (peak avg : ℚ) :
    (peak ≤ 0.001 → velocityRatioOf peak avg = 0) ∧
    (0.001 < peak → peak ≠ 0 ∧ velocityRatioOf peak avg = avg / peak) ∧
    (isDeceleratingOf peak avg ↔ velocityRatioOf peak avg < 0.7 ∧ 0.5 < peak) := by
  refine ⟨fun h => ?_, fun h => ?_, Iff.rfl⟩
  · simp [velocityRatioOf, not_lt.mpr h]
  · have h0 : peak ≠ 0 := ne_of_gt (lt_trans (by norm_num) h)
    exact ⟨h0, by simp [velocityRatioOf, h]⟩

/-- Witness for C8: a near-zero peak (0.0005) yields ratio 0; a peak of 2
with average 1 yields the exact quotient 1/2. -/
theorem velocity_ratio_guard_witness :
    ((1 / 2000 : ℚ) ≤ 0.001 ∧ velocityRatioOf (1 / 2000) 3 = 0) ∧
    ((0.001 : ℚ) < 2 ∧ ((2 : ℚ) ≠ 0 ∧ velocityRatioOf 2 1 = 1 / 2)) :=
  ⟨⟨by norm_num, (velocity_ratio_guard (1 / 2000) 3).1 (by norm_num)⟩,
   ⟨by norm_num, (velocity_ratio_guard 2 1).2.1 (by norm_num)⟩⟩

lemma clamp_add_mem (t c : ℚ) (h0 : 0 ≤ t) (hc : 0 ≤ c) :
    0 ≤ min 1 (t + c) ∧ min 1 (t + c) ≤ 1 :=
  ⟨le_min (by norm_num) (by linarith), min_le_left _ _⟩

lemma clamp_set_mem (c : ℚ) (hc : 0 ≤ c) : 0 ≤ min 1 c ∧ min 1 c ≤ 1 :=
  ⟨le_min (by norm_num) hc, min_le_left _ _⟩

/-- The asymptotic chase `a += (b - a) * c` with a factor `c ∈ [0, 1]` stays
below `max a b` and inside `[0, 1]` when both endpoints are. -/
lemma chase_le (a b c : ℚ) (hc0 : 0 ≤ c) (hc1 : c ≤ 1) :
    a + (b - a) * c ≤ max a b ∧
    (0 ≤ a → 0 ≤ b → 0 ≤ a + (b - a) * c) ∧
    (a ≤ 1 → b ≤ 1 → a + (b - a) * c ≤ 1) := by
  rcases le_total a b with h | h
  · have h1 : 0 ≤ (b - a) * c := mul_nonneg (by linarith) hc0
    have h2 : (b - a) * c ≤ b - a := by nlinarith
    exact ⟨le_trans (by linarith) (le_max_right a b), fun ha _ => by linarith,
      fun _ hb => by linarith⟩
  · have h1 : (b - a) * c ≤ 0 := mul_nonpos_of_nonpos_of_nonneg (by linarith) hc0
    have h2 : b - a ≤ (b - a) * c := by nlinarith
    exact ⟨le_trans (by linarith) (le_max_left a b), fun _ hb => by linarith,
      fun ha _ => by linarith⟩

namespace Drag

lemma currentVelocityOf_nonneg (s : State) (dt : ℚ) :
    0 ≤ currentVelocityOf s dt := le_max_left 0 _

lemma tdfAfterRise_mem (s : State) (dt : ℚ)
    (h0 : 0 ≤ s.targetDistortionFactor) (h1 : s.targetDistortionFactor ≤ 1) :
    0 ≤ tdfAfterRise s dt ∧ tdfAfterRise s dt ≤ 1 := by
  unfold tdfAfterRise movementDistortionOf
  split
  · exact ⟨le_trans h0 (le_max_left _ _), max_le h1 (min_le_left _ _)⟩
  · exact ⟨h0, h1⟩

lemma decayRateOf_mem (s : State) (dt : ℚ) :
    0 < decayRateOf s dt ∧ decayRateOf s dt ≤ 1 := by
  unfold decayRateOf
  split <;> norm_num [distortionDecay]

lemma frame_df (s : State) (dt : ℚ)
    (h0 : 0 ≤ s.targetDistortionFactor) (h1 : s.targetDistortionFactor ≤ 1)
    (h2 : 0 ≤ s.currentDistortionFactor) (h3 : s.currentDistortionFactor ≤ 1) :
    (0 ≤ (frameStep s dt).targetDistortionFactor ∧
      (frameStep s dt).targetDistortionFactor ≤ 1) ∧
    (0 ≤ (frameStep s dt).currentDistortionFactor ∧
      (frameStep s dt).currentDistortionFactor ≤ 1) ∧
    (frameStep s dt).currentDistortionFactor ≤
      max s.currentDistortionFactor (frameStep s dt).targetDistortionFactor := by
  obtain ⟨hr0, hr1⟩ := tdfAfterRise_mem s dt h0 h1
  obtain ⟨hd0, hd1⟩ := decayRateOf_mem s dt
  have ht0 : 0 ≤ tdfAfterRise s dt * decayRateOf s dt := mul_nonneg hr0 hd0.le
  have ht1 : tdfAfterRise s dt * decayRateOf s dt ≤ 1 := by nlinarith
  have htd : (frameStep s dt).targetDistortionFactor =
      tdfAfterRise s dt * decayRateOf s dt := by simp [frameStep]
  have hcd : (frameStep s dt).currentDistortionFactor =
      s.currentDistortionFactor +
        (tdfAfterRise s dt * decayRateOf s dt - s.currentDistortionFactor) *
          distortionSmoothing := by simp [frameStep]
  have hch := chase_le s.currentDistortionFactor
    (tdfAfterRise s dt * decayRateOf s dt) distortionSmoothing
    (by norm_num [distortionSmoothing]) (by norm_num [distortionSmoothing])
  rw [htd, hcd]
  exact ⟨⟨ht0, ht1⟩, ⟨hch.2.1 h2 ht0, hch.2.2 h3 ht1⟩, hch.1⟩

lemma eventStep_df (u : ℚ) (s : State) (e : Event) (hv : eventValid e)
    (h0 : 0 ≤ s.targetDistortionFactor) (h1 : s.targetDistortionFactor ≤ 1)
    (h2 : 0 ≤ s.currentDistortionFactor) (h3 : s.currentDistortionFactor ≤ 1) :
    (0 ≤ (eventStep u s e).targetDistortionFactor ∧
      (eventStep u s e).targetDistortionFactor ≤ 1) ∧
    (0 ≤ (eventStep u s e).currentDistortionFactor ∧
      (eventStep u s e).currentDistortionFactor ≤ 1) ∧
    (eventStep u s e).currentDistortionFactor ≤
      max s.currentDistortionFactor (eventStep u s e).targetDistortionFactor := by
  cases e with
  | mouseDown x =>
      simp only [eventStep]
      exact ⟨⟨h0, h1⟩, ⟨h2, h3⟩, le_max_left _ _⟩
  | mouseMove x =>
      by_cases hd : s.isDragging = true
      · have hc : (0 : ℚ) ≤ min (|x - s.dragLastX| * 0.02) 1 :=
          le_min (by positivity) (by norm_num)
        obtain ⟨b0, b1⟩ := clamp_add_mem s.targetDistortionFactor _ h0 hc
        simp only [eventStep, hd, if_true]
        exact ⟨⟨b0, b1⟩, ⟨h2, h3⟩, le_max_left _ _⟩
      · simp only [eventStep, hd, if_false]
        exact ⟨⟨h0, h1⟩, ⟨h2, h3⟩, le_max_left _ _⟩
  | mouseUp x =>
      by_cases hd : s.isDragging = true
      · by_cases hvel : 0.5 < |(s.dragLastX - s.dragStartX) * 0.005|
        · have hc : (0 : ℚ) ≤
              |(s.dragLastX - s.dragStartX) * 0.005| * distortionSensitivity * 1.5 :=
            mul_nonneg (mul_nonneg (abs_nonneg _)
              (by norm_num [distortionSensitivity])) (by norm_num)
          obtain ⟨b0, b1⟩ := clamp_add_mem s.targetDistortionFactor _ h0 hc
          simp only [eventStep, hd, hvel, if_true]
          exact ⟨⟨b0, b1⟩, ⟨h2, h3⟩, le_max_left _ _⟩
        · simp only [eventStep, hd, hvel, if_true, if_false]
          exact ⟨⟨h0, h1⟩, ⟨h2, h3⟩, le_max_left _ _⟩
      · simp only [eventStep, hd, if_false]
        exact ⟨⟨h0, h1⟩, ⟨h2, h3⟩, le_max_left _ _⟩
  | arrowLeft =>
      obtain ⟨b0, b1⟩ := clamp_add_mem s.targetDistortionFactor 0.3 h0 (by norm_num)
      simp only [eventStep]
      exact ⟨⟨b0, b1⟩, ⟨h2, h3⟩, le_max_left _ _⟩
  | arrowRight =>
      obtain ⟨b0, b1⟩ := clamp_add_mem s.targetDistortionFactor 0.3 h0 (by norm_num)
      simp only [eventStep]
      exact ⟨⟨b0, b1⟩, ⟨h2, h3⟩, le_max_left _ _⟩
  | frame dt =>
      simp only [eventStep]
      exact frame_df s dt h0 h1 h2 h3

lemma tdf_le_tdfSup (u : ℚ) (s : State) (evs : List Event) :
    s.targetDistortionFactor ≤ tdfSup u s evs := by
  cases evs with
  | nil => simp [tdfSup]
  | cons e es =>
      simp only [tdfSup]
      exact le_max_left _ _

lemma run_df (u : ℚ) (evs : List Event) : ∀ s : State,
    ValidEvents evs →
    0 ≤ s.targetDistortionFactor → s.targetDistortionFactor ≤ 1 →
    0 ≤ s.currentDistortionFactor → s.currentDistortionFactor ≤ 1 →
    (0 ≤ (run u s evs).targetDistortionFactor ∧
      (run u s evs).targetDistortionFactor ≤ 1) ∧
    (0 ≤ (run u s evs).currentDistortionFactor ∧
      (run u s evs).currentDistortionFactor ≤ 1) ∧
    (run u s evs).currentDistortionFactor ≤
      max s.currentDistortionFactor (tdfSup u s evs) := by
  induction evs with
  | nil =>
      intro s _ h0 h1 h2 h3
      simp only [run, tdfSup]
      exact ⟨⟨h0, h1⟩, ⟨h2, h3⟩, le_max_left _ _⟩
  | cons e es ih =>
      intro s hval h0 h1 h2 h3
      have hve : eventValid e := hval e (List.mem_cons_self e es)
      have hves : ValidEvents es := fun x hx => hval x (List.mem_cons_of_mem e hx)
      obtain ⟨⟨t0, t1⟩, ⟨c0, c1⟩, hle⟩ := eventStep_df u s e hve h0 h1 h2 h3
      obtain ⟨ht, hc, hrun⟩ := ih (eventStep u s e) hves t0 t1 c0 c1
      have hsup : (eventStep u s e).targetDistortionFactor ≤
          tdfSup u (eventStep u s e) es := tdf_le_tdfSup u (eventStep u s e) es
      refine ⟨by simpa [run] using ht, by simpa [run] using hc, ?_⟩
      simp only [run, tdfSup]
      refine le_trans hrun (max_le (le_trans hle (max_le (le_max_left _ _) ?_)) ?_)
      · exact le_trans hsup (le_trans (le_max_right _ _) (le_max_right _ _))
      · exact le_trans (le_max_right _ _) (le_max_right _ _)

end Drag

namespace Wheel

lemma wheelVelocity_nonneg (s : State) (dt : ℚ) (hdt : 0 < dt) :
    0 ≤ currentVelocityOf s dt := div_nonneg (abs_nonneg _) hdt.le

lemma wheelTdfAfterRise_mem (s : State) (dt : ℚ) (hdt : 0 < dt)
    (h0 : 0 ≤ s.targetDistortionFactor) (h1 : s.targetDistortionFactor ≤ 1) :
    0 ≤ tdfAfterRise s dt ∧ tdfAfterRise s dt ≤ 1 := by
  have hv : 0 ≤ currentVelocityOf s dt := wheelVelocity_nonneg s dt hdt
  unfold tdfAfterRise movementDistortionOf
  split
  · exact ⟨le_trans h0 (le_max_left _ _), max_le h1 (min_le_left _ _)⟩
  · exact ⟨h0, h1⟩

lemma wheelDecayRateOf_mem (s : State) (dt : ℚ) :
    0 < decayRateOf s dt ∧ decayRateOf s dt ≤ 1 := by
  unfold decayRateOf
  split <;> norm_num [distortionDecay]

lemma wheelFrame_df (s : State) (dt : ℚ) (hdt : 0 < dt)
    (h0 : 0 ≤ s.targetDistortionFactor) (h1 : s.targetDistortionFactor ≤ 1)
    (h2 : 0 ≤ s.currentDistortionFactor) (h3 : s.currentDistortionFactor ≤ 1) :
    (0 ≤ (frameStep s dt).targetDistortionFactor ∧
      (frameStep s dt).targetDistortionFactor ≤ 1) ∧
    (0 ≤ (frameStep s dt).currentDistortionFactor ∧
      (frameStep s dt).currentDistortionFactor ≤ 1) ∧
    (frameStep s dt).currentDistortionFactor ≤
      max s.currentDistortionFactor (frameStep s dt).targetDistortionFactor := by
  obtain ⟨hr0, hr1⟩ := wheelTdfAfterRise_mem s dt hdt h0 h1
  obtain ⟨hd0, hd1⟩ := wheelDecayRateOf_mem s dt
  have ht0 : 0 ≤ tdfAfterRise s dt * decayRateOf s dt := mul_nonneg hr0 hd0.le
  have ht1 : tdfAfterRise s dt * decayRateOf s dt ≤ 1 := by nlinarith
  have htd : (frameStep s dt).targetDistortionFactor =
      tdfAfterRise s dt * decayRateOf s dt := by simp [frameStep]
  have hcd : (frameStep s dt).currentDistortionFactor =
      s.currentDistortionFactor +
        (tdfAfterRise s dt * decayRateOf s dt - s.currentDistortionFactor) *
          distortionSmoothing := by simp [frameStep]
  have hch := chase_le s.currentDistortionFactor
    (tdfAfterRise s dt * decayRateOf s dt) distortionSmoothing
    (by norm_num [distortionSmoothing]) (by norm_num [distortionSmoothing])
  rw [htd, hcd]
  exact ⟨⟨ht0, ht1⟩, ⟨hch.2.1 h2 ht0, hch.2.2 h3 ht1⟩, hch.1⟩

lemma wheelEventStep_df (u : ℚ) (s : State) (e : Event) (hv : eventValid e)
    (h0 : 0 ≤ s.targetDistortionFactor) (h1 : s.targetDistortionFactor ≤ 1)
    (h2 : 0 ≤ s.currentDistortionFactor) (h3 : s.currentDistortionFactor ≤ 1) :
    (0 ≤ (eventStep u s e).targetDistortionFactor ∧
      (eventStep u s e).targetDistortionFactor ≤ 1) ∧
    (0 ≤ (eventStep u s e).currentDistortionFactor ∧
      (eventStep u s e).currentDistortionFactor ≤ 1) ∧
    (eventStep u s e).currentDistortionFactor ≤
      max s.currentDistortionFactor (eventStep u s e).targetDistortionFactor := by
  cases e with
  | wheel dy =>
      have hc : (0 : ℚ) ≤ min (|dy| * 0.001) 1 :=
        le_min (by positivity) (by norm_num)
      obtain ⟨b0, b1⟩ := clamp_add_mem s.targetDistortionFactor _ h0 hc
      simp only [eventStep]
      exact ⟨⟨b0, b1⟩, ⟨h2, h3⟩, le_max_left _ _⟩
  | scrollTimeout =>
      simp only [eventStep]
      exact ⟨⟨h0, h1⟩, ⟨h2, h3⟩, le_max_left _ _⟩
  | arrowLeft =>
      obtain ⟨b0, b1⟩ := clamp_add_mem s.targetDistortionFactor 0.3 h0 (by norm_num)
      simp only [eventStep]
      exact ⟨⟨b0, b1⟩, ⟨h2, h3⟩, le_max_left _ _⟩
  | arrowRight =>
      obtain ⟨b0, b1⟩ := clamp_add_mem s.targetDistortionFactor 0.3 h0 (by norm_num)
      simp only [eventStep]
      exact ⟨⟨b0, b1⟩, ⟨h2, h3⟩, le_max_left _ _⟩
  | touchStart x =>
      simp only [eventStep]
      exact ⟨⟨h0, h1⟩, ⟨h2, h3⟩, le_max_left _ _⟩
  | touchMove x =>
      have hc : (0 : ℚ) ≤ min (|x - s.touchLastX| * 0.02) 1 :=
        le_min (by positivity) (by norm_num)
      obtain ⟨b0, b1⟩ := clamp_add_mem s.targetDistortionFactor _ h0 hc
      simp only [eventStep]
      exact ⟨⟨b0, b1⟩, ⟨h2, h3⟩, le_max_left _ _⟩
  | touchEnd =>
      by_cases hvel : 0.5 < |(s.touchLastX - s.touchStartX) * 0.005|
      · have hc : (0 : ℚ) ≤
            |(s.touchLastX - s.touchStartX) * 0.005| * 3 * distortionSensitivity :=
          mul_nonneg (mul_nonneg (abs_nonneg _) (by norm_num))
            (by norm_num [distortionSensitivity])
        obtain ⟨b0, b1⟩ := clamp_set_mem _ hc
        simp only [eventStep, hvel, if_true]
        exact ⟨⟨b0, b1⟩, ⟨h2, h3⟩, le_max_left _ _⟩
      · simp only [eventStep, hvel, if_false]
        exact ⟨⟨h0, h1⟩, ⟨h2, h3⟩, le_max_left _ _⟩
  | touchTimeout =>
      simp only [eventStep]
      exact ⟨⟨h0, h1⟩, ⟨h2, h3⟩, le_max_left _ _⟩
  | frame dt =>
      simp only [eventStep]
      exact wheelFrame_df s dt hv h0 h1 h2 h3

lemma wheelTdf_le_tdfSup (u : ℚ) (s : State) (evs : List Event) :
    s.targetDistortionFactor ≤ tdfSup u s evs := by
  cases evs with
  | nil => simp [tdfSup]
  | cons e es =>
      simp only [tdfSup]
      exact le_max_left _ _

lemma wheelRun_df (u : ℚ) (evs : List Event) : ∀ s : State,
    ValidEvents evs →
    0 ≤ s.targetDistortionFactor → s.targetDistortionFactor ≤ 1 →
    0 ≤ s.currentDistortionFactor → s.currentDistortionFactor ≤ 1 →
    (0 ≤ (run u s evs).targetDistortionFactor ∧
      (run u s evs).targetDistortionFactor ≤ 1) ∧
    (0 ≤ (run u s evs).currentDistortionFactor ∧
      (run u s evs).currentDistortionFactor ≤ 1) ∧
    (run u s evs).currentDistortionFactor ≤
      max s.currentDistortionFactor (tdfSup u s evs) := by
  induction evs with
  | nil =>
      intro s _ h0 h1 h2 h3
      simp only [run, tdfSup]
      exact ⟨⟨h0, h1⟩, ⟨h2, h3⟩, le_max_left _ _⟩
  | cons e es ih =>
      intro s hval h0 h1 h2 h3
      have hve : eventValid e := hval e (List.mem_cons_self e es)
      have hves : ValidEvents es := fun x hx => hval x (List.mem_cons_of_mem e hx)
      obtain ⟨⟨t0, t1⟩, ⟨c0, c1⟩, hle⟩ := wheelEventStep_df u s e hve h0 h1 h2 h3
      obtain ⟨ht, hc, hrun⟩ := ih (eventStep u s e) hves t0 t1 c0 c1
      have hsup : (eventStep u s e).targetDistortionFactor ≤
          tdfSup u (eventStep u s e) es := wheelTdf_le_tdfSup u (eventStep u s e) es
      refine ⟨by simpa [run] using ht, by simpa [run] using hc, ?_⟩
      simp only [run, tdfSup]
      refine le_trans hrun (max_le (le_trans hle (max_le (le_max_left _ _) ?_)) ?_)
      · exact le_trans hsup (le_trans (le_max_right _ _) (le_max_right _ _))
      · exact le_trans (le_max_right _ _) (le_max_right _ _)

end Wheel

/-- C3. Starting from `targetDistortionFactor = currentDistortionFactor = 0`,
after any finite sequence of input events (mouse press/move/release and
arrow keys in the drag variant; wheel, touch move/end, timers and arrow keys
in the wheel variant) and frame updates with `deltaTime > 0`, both factors
remain inside `[0, 1]`, and the current factor never exceeds the largest
value the target factor has attained along the run (the smoothing step never
overshoots its target). -/
theorem distortion_factor_invariant (u1 u2 : ℚ) (s : Drag.State)
    (evs1 : List Drag.Event) (t : Wheel.State) (evs2 : List Wheel.Event)
    (hs1 : s.targetDistortionFactor = 0) (hs2 : s.currentDistortionFactor = 0)
    (ht1 : t.targetDistortionFactor = 0) (ht2 : t.currentDistortionFactor = 0)
    (hv1 : Drag.ValidEvents evs1) (hv2 : Wheel.ValidEvents evs2) :
    (0 ≤ (Drag.run u1 s evs1).targetDistortionFactor ∧
      (Drag.run u1 s evs1).targetDistortionFactor ≤ 1 ∧
      0 ≤ (Drag.run u1 s evs1).currentDistortionFactor ∧
      (Drag.run u1 s evs1).currentDistortionFactor ≤ 1 ∧
      (Drag.run u1 s evs1).currentDistortionFactor ≤ Drag.tdfSup u1 s evs1) ∧
    (0 ≤ (Wheel.run u2 t evs2).targetDistortionFactor ∧
      (Wheel.run u2 t evs2).targetDistortionFactor ≤ 1 ∧
      0 ≤ (Wheel.run u2 t evs2).currentDistortionFactor ∧
      (Wheel.run u2 t evs2).currentDistortionFactor ≤ 1 ∧
      (Wheel.run u2 t evs2).currentDistortionFactor ≤ Wheel.tdfSup u2 t evs2) := by
  obtain ⟨⟨d0, d1⟩, ⟨d2, d3⟩, d4⟩ := Drag.run_df u1 evs1 s hv1
    (by rw [hs1]) (by rw [hs1]; norm_num) (by rw [hs2]) (by rw [hs2]; norm_num)
  obtain ⟨⟨w0, w1⟩, ⟨w2, w3⟩, w4⟩ := Wheel.wheelRun_df u2 evs2 t hv2
    (by rw [ht1]) (by rw [ht1]; norm_num) (by rw [ht2]) (by rw [ht2]; norm_num)
  have hds : 0 ≤ Drag.tdfSup u1 s evs1 := hs1 ▸ Drag.tdf_le_tdfSup u1 s evs1
  have hws : 0 ≤ Wheel.tdfSup u2 t evs2 := ht1 ▸ Wheel.wheelTdf_le_tdfSup u2 t evs2
  have hdm : max s.currentDistortionFactor (Drag.tdfSup u1 s evs1) =
      Drag.tdfSup u1 s evs1 := by rw [hs2]; exact max_eq_right hds
  have hwm : max t.currentDistortionFactor (Wheel.tdfSup u2 t evs2) =
      Wheel.tdfSup u2 t evs2 := by rw [ht2]; exact max_eq_right hws
  exact ⟨⟨d0, d1, d2, d3, hdm ▸ d4⟩, ⟨w0, w1, w2, w3, hwm ▸ w4⟩⟩

/-- The freshly mounted drag-variant state. -/
def initDragState : Drag.State :=
  { currentPosition := -15.5
    targetPosition := -15.5
    isDragging := false
    dragStartX := 0
    dragLastX := 0
    autoScrollSpeed := 0
    prevPosition := 0
    currentDistortionFactor := 0
    targetDistortionFactor := 0
    peakVelocity := 0
    velocityHistory := [0, 0, 0, 0, 0] }

/-- The freshly mounted wheel-variant state. -/
def initWheelState : Wheel.State :=
  { currentPosition := -15.5
    targetPosition := -15.5
    isScrolling := false
    autoScrollSpeed := 0
    touchStartX := 0
    touchLastX := 0
    prevPosition := 0
    currentDistortionFactor := 0
    targetDistortionFactor := 0
    peakVelocity := 0
    velocityHistory := [0, 0, 0, 0, 0] }

/-- A sample interaction on the drag variant. -/
def sampleDragEvents : List Drag.Event :=
  [.mouseDown 100, .mouseMove 130, .mouseUp 130, .frame 0.016,
   .arrowRight, .frame 0.02]

/-- A sample interaction on the wheel variant. -/
def sampleWheelEvents : List Wheel.Event :=
  [.wheel 500, .frame 0.016, .scrollTimeout, .touchStart 50, .touchMove 80,
   .touchEnd, .frame 0.02]

/-- Witness for C3 on concrete interactions against both variants. -/
theorem distortion_factor_invariant_witness :
    (0 ≤ (Drag.run 3.1 initDragState sampleDragEvents).targetDistortionFactor ∧
      (Drag.run 3.1 initDragState sampleDragEvents).targetDistortionFactor ≤ 1 ∧
      0 ≤ (Drag.run 3.1 initDragState sampleDragEvents).currentDistortionFactor ∧
      (Drag.run 3.1 initDragState sampleDragEvents).currentDistortionFactor ≤ 1 ∧
      (Drag.run 3.1 initDragState sampleDragEvents).currentDistortionFactor ≤
        Drag.tdfSup 3.1 initDragState sampleDragEvents) ∧
    (0 ≤ (Wheel.run 3.1 initWheelState sampleWheelEvents).targetDistortionFactor ∧
      (Wheel.run 3.1 initWheelState sampleWheelEvents).targetDistortionFactor ≤ 1 ∧
      0 ≤ (Wheel.run 3.1 initWheelState sampleWheelEvents).currentDistortionFactor ∧
      (Wheel.run 3.1 initWheelState sampleWheelEvents).currentDistortionFactor ≤ 1 ∧
      (Wheel.run 3.1 initWheelState sampleWheelEvents).currentDistortionFactor ≤
        Wheel.tdfSup 3.1 initWheelState sampleWheelEvents) :=
  distortion_factor_invariant 3.1 3.1 initDragState sampleDragEvents
    initWheelState sampleWheelEvents rfl rfl rfl rfl
    (by
      intro e he
      fin_cases he <;> norm_num [Drag.eventValid])
    (by
      intro e he
      fin_cases he <;> norm_num [Wheel.eventValid])

namespace Curve

/-- A panel mesh as updateCurve sees it: the `originalVertices` snapshot
captured at creation, the live position buffer, and the aspect-fit scale. -/
structure Mesh where
  originalVertices : List (ℝ × ℝ × ℝ)
  live : List (ℝ × ℝ × ℝ)
  scaleX : ℝ
  scaleY : ℝ

/-- The per-vertex displacement of updateCurve: world-space position of the
vertex (panel world X plus local x scaled by the panel scale; local y
scaled), radial distance from the distortion center at the origin, strength
`max (0, 1 - dist / 2)` for radius 2.0, and
`z = sin(strength * pi / 2) ^ 1.5 * (2.5 * distortionFactor)` with
`maxDistortion = 2.5`. -/
noncomputable def curveZ (scaleX scaleY worldPositionX distortionFactor x y : ℝ) : ℝ :=
  let vertexWorldPosX := worldPositionX + x * scaleX
  let vertexWorldPosY := y * scaleY
  let distFromCenter :=
    Real.sqrt ((vertexWorldPosX - 0) ^ 2 + (vertexWorldPosY - 0) ^ 2)
  let distortionStrength := max 0 (1 - distFromCenter / 2)
  Real.sin (distortionStrength * Real.pi / 2) ^ (1.5 : ℝ) *
    (2.5 * distortionFactor)

/-- updateCurve: for every vertex of the live buffer, write into its z slot
the displacement computed from the stored original (x, y) of the same index;
x and y of the live buffer and the original snapshot stay untouched. -/
noncomputable def updateCurve (m : Mesh) (worldPositionX distortionFactor : ℝ) :
    Mesh :=
  { m with
    live := List.zipWith
      (fun v o =>
        (v.1, v.2.1,
          curveZ m.scaleX m.scaleY worldPositionX distortionFactor o.1 o.2.1))
      m.live m.originalVertices }

lemma zipWith_idem {α β : Type} (g : α → β → α)
    (hg : ∀ a b, g (g a b) b = g a b) :
    ∀ l : List α, ∀ o : List β,
      List.zipWith g (List.zipWith g l o) o = List.zipWith g l o
  | [], o => by cases o <;> simp
  | a :: l, [] => by simp
  | a :: l, b :: o => by
      simp only [List.zipWith, hg]
      exact congrArg _ (zipWith_idem g hg l o)

/-- C9. Frame effect of the displacement pass: updateCurve leaves the stored
`originalVertices` and the panel scale untouched, preserves the x and y
coordinates of every live vertex, writes into each z slot a value that is a
function only of that vertex's original (x, y), the panel's world X and
scale, and the distortion factor, and is idempotent — running it twice with
the same inputs equals running it once, so displacement never accumulates
across frames. -/
theorem displacement_frame_effect (m : Mesh) (wx f : ℝ) :
    (updateCurve m wx f).originalVertices = m.originalVertices ∧
    (updateCurve m wx f).scaleX = m.scaleX ∧
    (updateCurve m wx f).scaleY = m.scaleY ∧
    (updateCurve m wx f).live.length =
      min m.live.length m.originalVertices.length ∧
    (∀ i, ∀ h1 : i < (updateCurve m wx f).live.length,
      ∀ h2 : i < m.live.length, ∀ h3 : i < m.originalVertices.length,
      ((updateCurve m wx f).live.get ⟨i, h1⟩).1 = (m.live.get ⟨i, h2⟩).1 ∧
      ((updateCurve m wx f).live.get ⟨i, h1⟩).2.1 =
        (m.live.get ⟨i, h2⟩).2.1 ∧
      ((updateCurve m wx f).live.get ⟨i, h1⟩).2.2 =
        curveZ m.scaleX m.scaleY wx f
          (m.originalVertices.get ⟨i, h3⟩).1
          (m.originalVertices.get ⟨i, h3⟩).2.1) ∧
    updateCurve (updateCurve m wx f) wx f = updateCurve m wx f := by
  refine ⟨rfl, rfl, rfl, by simp [updateCurve], ?_, ?_⟩
  · intro i h1 h2 h3
    have hz := @List.get_zipWith _ _ _
      (fun v o : ℝ × ℝ × ℝ =>
        (v.1, v.2.1, curveZ m.scaleX m.scaleY wx f o.1 o.2.1))
      m.live m.originalVertices ⟨i, h1⟩
    refine ⟨?_, ?_, ?_⟩ <;>
      simp only [updateCurve] at hz ⊢ <;> rw [hz]
  · show Mesh.mk _ _ _ _ = Mesh.mk _ _ _ _
    simp only [updateCurve]
    congr 1
    exact zipWith_idem
      (fun v o : ℝ × ℝ × ℝ =>
        (v.1, v.2.1, curveZ m.scaleX m.scaleY wx f o.1 o.2.1))
      (fun a b => rfl) m.live m.originalVertices

/-- A one-vertex mesh used to instantiate the displacement frame effect. -/
noncomputable def sampleMesh : Mesh :=
  { originalVertices := [(0.5, 0.25, 0)]
    live := [(0.5, 0.25, 0.7)]
    scaleX := 1
    scaleY := 0.8 }

/-- Witness for C9 at a concrete one-vertex mesh and index 0. -/
theorem displacement_frame_effect_witness :
    ((updateCurve sampleMesh 2 0.4).originalVertices =
        sampleMesh.originalVertices) ∧
    (0 < (updateCurve sampleMesh 2 0.4).live.length ∧
      0 < sampleMesh.live.length ∧
      0 < sampleMesh.originalVertices.length) ∧
    (∀ h1 : 0 < (updateCurve sampleMesh 2 0.4).live.length,
      ∀ h2 : 0 < sampleMesh.live.length,
      ∀ h3 : 0 < sampleMesh.originalVertices.length,
      ((updateCurve sampleMesh 2 0.4).live.get ⟨0, h1⟩).1 =
        (sampleMesh.live.get ⟨0, h2⟩).1 ∧
      ((updateCurve sampleMesh 2 0.4).live.get ⟨0, h1⟩).2.1 =
        (sampleMesh.live.get ⟨0, h2⟩).2.1 ∧
      ((updateCurve sampleMesh 2 0.4).live.get ⟨0, h1⟩).2.2 =
        curveZ sampleMesh.scaleX sampleMesh.scaleY 2 0.4
          (sampleMesh.originalVertices.get ⟨0, h3⟩).1
          (sampleMesh.originalVertices.get ⟨0, h3⟩).2.1) ∧
    updateCurve (updateCurve sampleMesh 2 0.4) 2 0.4 =
      updateCurve sampleMesh 2 0.4 := by
  have h := displacement_frame_effect sampleMesh 2 0.4
  have hl1 : 0 < (updateCurve sampleMesh 2 0.4).live.length := by
    simp [updateCurve, sampleMesh]
  have hl2 : 0 < sampleMesh.live.length := by simp [sampleMesh]
  have hl3 : 0 < sampleMesh.originalVertices.length := by simp [sampleMesh]
  exact ⟨h.1, ⟨hl1, hl2, hl3⟩,
    fun h1 h2 h3 => h.2.2.2.2.1 0 h1 h2 h3, h.2.2.2.2.2⟩

end Curve

end Slider
